import Mathlib

/-!
Verification of the SSTable writer (sstables/sstable_writer.go) of the
go-sstables repository, as a shallow embedding in Lean 4.

Byte strings are lists of naturals (each entry a byte value); Go byte
slices that may be nil are modelled as Option values, since Go
distinguishes a nil slice from an empty non-nil slice.  The RecordIO
writers, the metadata file and the bloom filter live in other packages of
the repository (not part of the sources under verification), so they are
modelled from the spec as simple record-accumulating file abstractions;
failures of the external world (I/O errors) are injected through explicit
fault flags, so that the writer's error paths become ordinary executable
branches.
-/

namespace SSTables

/-- A byte string: the payload of a Go byte slice. -/
abbrev Bytes := List Nat

/-- Error kinds produced by the writer and its collaborators.  Go errors
are wrapped strings; only the kind of each error matters here. -/
inductive ErrKind where
  | duplicateKey
  | outOfOrderKey
  | tableNotOpened
  | nilPanic
  | writerClosed
  | dataWriteFailed
  | indexWriteFailed
  | seekFailed
  | indexCreateFailed
  | indexOpenFailed
  | dataCreateFailed
  | dataOpenFailed
  | metaOpenFailed
  | bloomAllocFailed
  | indexCloseFailed
  | dataCloseFailed
  | bloomWriteFailed
  | marshalFailed
  | metaWriteFailed
  | metaCloseFailed
  | invalidArgument
  deriving DecidableEq, Repr

/-- A Go error value after errors.Join flattening: the empty list is the
nil error, a non-empty list is the ordered join of its members. -/
abbrev GoErr := List ErrKind

/-- FNV-64 offset basis (hash/fnv). -/
def fnvOffsetBasis : Nat := 14695981039346656037

/-- FNV-64 prime (hash/fnv). -/
def fnvPrime : Nat := 1099511628211

/-- The hash computed by Go's fnv.New64, i.e. FNV-1 in 64 bits: for each
byte, multiply by the prime modulo 2^64, then xor the byte in.  This is
the hash the writer feeds to the bloom filter (sstable_writer.go line
115). -/
def fnvNew64 (data : Bytes) : Nat :=
  data.foldl (fun h b => Nat.xor ((h * fnvPrime) % 2 ^ 64) (b % 256)) fnvOffsetBasis

/-- Modelled from the spec: the FNV-64a hash (Go's fnv.New64a), which the
spec names as the bloom hash.  For each byte, xor the byte in first, then
multiply by the prime modulo 2^64. -/
def fnv64a (data : Bytes) : Nat :=
  data.foldl (fun h b => ((Nat.xor h (b % 256)) * fnvPrime) % 2 ^ 64) fnvOffsetBasis

/-- The CRC-64/ISO reversed polynomial used by Go's crc64.ISO table. -/
def crc64ISOPoly : Nat := 0xD800000000000000

/-- One shift-and-conditionally-xor round of the reflected CRC-64. -/
def crc64Round (c : Nat) : Nat :=
  if c % 2 = 1 then Nat.xor (c / 2) crc64ISOPoly else c / 2

/-- Fold one byte into a reflected CRC-64 state: xor the byte into the low
bits, then run eight rounds.  Bitwise equivalent of Go's table-driven
crc64 update with the ISO table. -/
def crc64Byte (c b : Nat) : Nat :=
  crc64Round^[8] (Nat.xor c (b % 256))

/-- CRC-64/ISO of a byte string as computed by crc64.New(MakeTable(ISO))
followed by Write and Sum64: initial inversion, per-byte update, final
inversion (sstable_writer.go lines 120-124). -/
def crc64ISO (data : Bytes) : Nat :=
  Nat.xor (data.foldl crc64Byte (2 ^ 64 - 1)) (2 ^ 64 - 1)

/-- An entry of the index file (sstables/proto IndexEntry). -/
structure IndexEntry where
  key : Bytes
  valueOffset : Nat
  checksum : Nat
  deriving DecidableEq, Repr

/-- The per-table metadata blob (sstables/proto MetaData).  MinKey and
MaxKey are Option values because the Go proto fields start out nil. -/
structure MetaData where
  version : Nat
  numRecords : Nat
  nullValues : Nat
  minKey : Option Bytes
  maxKey : Option Bytes
  dataBytes : Nat
  indexBytes : Nat
  totalBytes : Nat
  deriving DecidableEq, Repr

/-- Modelled from the spec: the recordio data writer (package recordio,
outside the verified sources).  A log of (offset, payload) records; Size
is the running byte count; a closed writer rejects writes. -/
structure RecWriter where
  closed : Bool
  records : List (Nat × Bytes)
  size : Nat
  deriving DecidableEq, Repr

/-- Modelled from the spec: the recordio proto writer used for the index
file (package recordio/proto, outside the verified sources). -/
structure ProtoWriter where
  closed : Bool
  entries : List IndexEntry
  size : Nat
  deriving DecidableEq, Repr

/-- Modelled from the spec: the meta file handle; writing it records the
serialized metadata blob. -/
structure MetaFile where
  closed : Bool
  written : Option MetaData
  deriving DecidableEq, Repr

/-- Modelled from the spec: bytes occupied by a recordio file header. -/
def fileHeaderSize : Nat := 8

/-- Modelled from the spec: bytes a data record with the given payload
occupies on disk (header plus payload; the exact header size is
immaterial, only positivity matters). -/
def recordFrameSize (payload : Bytes) : Nat := payload.length + 1

/-- Modelled from the spec: bytes an index entry occupies on disk. -/
def indexFrameSize (e : IndexEntry) : Nat := e.key.length + 2

/-- Modelled from the spec: recordio Write appends a record and returns
the record's starting offset, the pre-append Size; a closed writer or an
injected I/O fault yields an error and leaves the file unchanged. -/
def recWrite (dw : RecWriter) (payload : Bytes) (fail : Bool) :
    Except ErrKind (RecWriter × Nat) :=
  if dw.closed then Except.error ErrKind.writerClosed
  else if fail then Except.error ErrKind.dataWriteFailed
  else Except.ok
    ({ dw with records := dw.records ++ [(dw.size, payload)],
               size := dw.size + recordFrameSize payload }, dw.size)

/-- Modelled from the spec: recordio Seek truncates the file back to the
given offset, dropping every record that starts at or after it. -/
def recSeek (dw : RecWriter) (off : Nat) (fail : Bool) :
    Except ErrKind RecWriter :=
  if fail then Except.error ErrKind.seekFailed
  else Except.ok
    { dw with records := dw.records.filter (fun r => decide (r.1 < off)),
              size := off }

/-- Modelled from the spec: the index proto writer appends one entry; a
closed writer or an injected fault yields an error without mutation. -/
def idxWrite (iw : ProtoWriter) (e : IndexEntry) (fail : Bool) :
    Except ErrKind ProtoWriter :=
  if iw.closed then Except.error ErrKind.writerClosed
  else if fail then Except.error ErrKind.indexWriteFailed
  else Except.ok
    { iw with entries := iw.entries ++ [e], size := iw.size + indexFrameSize e }

/-- Writer options (SSTableWriterOptions).  The comparator is optional
because its Go zero value is nil; the false-positive probability is a Go
float64 carried around without arithmetic, modelled as a rational. -/
structure SSTableWriterOptions where
  basePath : String
  indexCompressionType : Nat
  dataCompressionType : Nat
  enableBloomFilter : Bool
  bloomExpectedNumberOfElements : Nat
  bloomFpProbability : Rat
  writeBufferSizeBytes : Nat
  keyComparator : Option (Bytes → Bytes → Int)

/-- Modelled from the spec: recordio compression code none. -/
def CompressionTypeNone : Nat := 0

/-- Modelled from the spec: recordio compression code snappy. -/
def CompressionTypeSnappy : Nat := 1

/-- Modelled from the spec: the sstables format version constant written
into fresh metadata. -/
def Version : Nat := 1

/-- Modelled from the spec: fixed file names within a table directory. -/
def IndexFileName : String := "index"

/-- Modelled from the spec: data file name. -/
def DataFileName : String := "data"

/-- Modelled from the spec: meta file name. -/
def MetaFileName : String := "meta"

/-- The streaming writer state (SSTableStreamWriter).  Fields that are
Go nil-able pointers are Option values; everything starts at none on a
freshly constructed writer. -/
structure SSTableStreamWriter where
  opts : SSTableWriterOptions
  indexWriter : Option ProtoWriter
  dataWriter : Option RecWriter
  metaDataFile : Option MetaFile
  bloomFilter : Option (List Nat)
  metaData : Option MetaData
  lastKey : Option Bytes

/-- A freshly constructed stream writer: only the options are set. -/
def freshWriter (opts : SSTableWriterOptions) : SSTableStreamWriter :=
  { opts := opts, indexWriter := none, dataWriter := none,
    metaDataFile := none, bloomFilter := none, metaData := none,
    lastKey := none }

/-- Injected faults for one WriteNext call: whether the data append, the
index append and the rollback seek fail. -/
structure WriteFaults where
  dataFail : Bool := false
  indexFail : Bool := false
  seekFail : Bool := false
  deriving DecidableEq, Repr

/-- The tail of WriteNext from the data append on (sstable_writer.go
lines 120-144): compute the CRC of the value, snapshot the data size,
append the value, append the index entry, and on index failure seek the
data writer back to the snapshot, joining the index error with any seek
error; on success bump the record counters (null only when the Go value
slice is nil). -/
def writeNextRecord (w : SSTableStreamWriter) (key : Bytes)
    (value : Option Bytes) (f : WriteFaults) : SSTableStreamWriter × GoErr :=
  let crc := crc64ISO (value.getD [])
  match w.dataWriter with
  | none => (w, [ErrKind.nilPanic])
  | some dw =>
    let preWriteOffset := dw.size
    match recWrite dw (value.getD []) f.dataFail with
    | Except.error e => (w, [e])
    | Except.ok (dw1, recordOffset) =>
      let w1 := { w with dataWriter := some dw1 }
      match w1.indexWriter with
      | none => (w1, [ErrKind.nilPanic])
      | some iw =>
        match idxWrite iw ({ key := key, valueOffset := recordOffset, checksum := crc }) f.indexFail with
        | Except.error e =>
          match recSeek dw1 preWriteOffset f.seekFail with
          | Except.error se => (w1, [e, se])
          | Except.ok dw2 => ({ w1 with dataWriter := some dw2 }, [e])
        | Except.ok iw1 =>
          let w2 := { w1 with indexWriter := some iw1 }
          match w2.metaData with
          | none => (w2, [ErrKind.nilPanic])
          | some md =>
            let md1 := { md with numRecords := md.numRecords + 1,
                                 nullValues := md.nullValues +
                                   (if value = none then 1 else 0) }
            ({ w2 with metaData := some md1 }, [])

/-- The bloom step of WriteNext (sstable_writer.go lines 114-118): when
the bloom filter is enabled, the FNV-64 hash of the raw key bytes is
added to the filter before the appends. -/
def writeNextBloom (w : SSTableStreamWriter) (key : Bytes)
    (value : Option Bytes) (f : WriteFaults) : SSTableStreamWriter × GoErr :=
  if w.opts.enableBloomFilter then
    match w.bloomFilter with
    | none => (w, [ErrKind.nilPanic])
    | some bf =>
      writeNextRecord { w with bloomFilter := some (bf ++ [fnvNew64 key]) } key value f
  else writeNextRecord w key value f

/-- WriteNext (sstable_writer.go lines 89-145).  With a previous key the
comparator decides: equal keys are a duplicate-key error, a previous key
comparing greater is an out-of-order-key error, otherwise last_key is
overwritten with the new key.  On the first call the writer requires the
metadata to exist (the table must be open) and records min_key. -/
def WriteNext (w : SSTableStreamWriter) (key : Bytes) (value : Option Bytes)
    (f : WriteFaults) : SSTableStreamWriter × GoErr :=
  match w.lastKey with
  | some lastKey =>
    match w.opts.keyComparator with
    | none => (w, [ErrKind.nilPanic])
    | some cmp =>
      if cmp lastKey key = 0 then (w, [ErrKind.duplicateKey])
      else if 0 < cmp lastKey key then (w, [ErrKind.outOfOrderKey])
      else writeNextBloom { w with lastKey := some key } key value f
  | none =>
    match w.metaData with
    | none => (w, [ErrKind.tableNotOpened])
    | some md =>
      writeNextBloom
        { w with metaData := some { md with minKey := some key },
                 lastKey := some key } key value f

/-- Whether a WriteNext call on this writer with this key gets past the
pre-append checks (the ordering check against last_key, or on a first
call the open-table check); mirrors the guards of WriteNext. -/
def checkPasses (w : SSTableStreamWriter) (k : Bytes) : Bool :=
  match w.lastKey with
  | some lk =>
    match w.opts.keyComparator with
    | none => false
    | some cmp => decide (cmp lk k < 0)
  | none => w.metaData.isSome

/-- The directory of the table as the writer sees it: whether the base
directory exists and which files have been created inside it. -/
structure FileSys where
  dirExists : Bool
  files : List String
  deriving DecidableEq, Repr

/-- Injected faults for one Open call, one flag per fallible step. -/
structure OpenFaults where
  indexCreateFail : Bool := false
  indexOpenFail : Bool := false
  dataCreateFail : Bool := false
  dataOpenFail : Bool := false
  metaOpenFail : Bool := false
  bloomAllocFail : Bool := false
  deriving DecidableEq, Repr

/-- Open (sstable_writer.go lines 36-87): create and open the index
recordio writer, create and open the data recordio writer, create the
meta file and a fresh metadata value, and allocate a bloom filter when
enabled.  There is no step that creates the base directory; file creation
(modelled from the spec for the recordio layer) fails when the directory
is absent.  Each failing step returns immediately, leaving the fields
already assigned in place. -/
def Open (w : SSTableStreamWriter) (fs : FileSys) (f : OpenFaults) :
    SSTableStreamWriter × FileSys × GoErr :=
  if !fs.dirExists || f.indexCreateFail then (w, fs, [ErrKind.indexCreateFailed])
  else
    let fs1 := { fs with files := fs.files ++ [IndexFileName] }
    let iw0 : ProtoWriter := { closed := false, entries := [], size := fileHeaderSize }
    let w1 := { w with indexWriter := some iw0 }
    if f.indexOpenFail then (w1, fs1, [ErrKind.indexOpenFailed])
    else if f.dataCreateFail then (w1, fs1, [ErrKind.dataCreateFailed])
    else
      let fs2 := { fs1 with files := fs1.files ++ [DataFileName] }
      let dw0 : RecWriter := { closed := false, records := [], size := fileHeaderSize }
      let w2 := { w1 with dataWriter := some dw0 }
      if f.dataOpenFail then (w2, fs2, [ErrKind.dataOpenFailed])
      else if f.metaOpenFail then (w2, fs2, [ErrKind.metaOpenFailed])
      else
        let fs3 := { fs2 with files := fs2.files ++ [MetaFileName] }
        let mf0 : MetaFile := { closed := false, written := none }
        let md0 : MetaData := { version := Version, numRecords := 0, nullValues := 0,
                                minKey := none, maxKey := none, dataBytes := 0,
                                indexBytes := 0, totalBytes := 0 }
        let w3 := { w2 with metaDataFile := some mf0, metaData := some md0 }
        if w3.opts.enableBloomFilter then
          if f.bloomAllocFail then (w3, fs3, [ErrKind.bloomAllocFailed])
          else ({ w3 with bloomFilter := some [] }, fs3, [])
        else (w3, fs3, [])

/-- Injected faults for one Close call, one flag per fallible step. -/
structure CloseFaults where
  indexCloseFail : Bool := false
  dataCloseFail : Bool := false
  bloomWriteFail : Bool := false
  marshalFail : Bool := false
  metaWriteFail : Bool := false
  metaCloseFail : Bool := false
  deriving DecidableEq, Repr

/-- The finalization steps Close performs, in order. -/
inductive CloseStep where
  | closeIndex
  | closeData
  | writeBloom
  | writeMeta
  | closeMeta
  deriving DecidableEq, Repr

/-- Close (sstable_writer.go lines 147-178): join the index-close and
data-close errors, attempt the bloom file when enabled and allocated,
then - when metadata and its file exist - populate max_key and the byte
counters, marshal and write the blob, and close the meta file through a
deferred join so it runs even when marshalling or writing failed.  The
returned trace lists which steps were attempted.  A nil index or data
writer is a Go nil-pointer panic, modelled as an immediate nilPanic
error. -/
def Close (w : SSTableStreamWriter) (f : CloseFaults) :
    SSTableStreamWriter × GoErr × List CloseStep :=
  match w.indexWriter, w.dataWriter with
  | some iw, some dw =>
    let w1 := { w with indexWriter := some { iw with closed := true },
                       dataWriter := some { dw with closed := true } }
    let e1 : GoErr := (if f.indexCloseFail then [ErrKind.indexCloseFailed] else []) ++
                      (if f.dataCloseFail then [ErrKind.dataCloseFailed] else [])
    let bloomAttempt : Bool := w.opts.enableBloomFilter && w.bloomFilter.isSome
    let e2 : GoErr := e1 ++
      (if bloomAttempt && f.bloomWriteFail then [ErrKind.bloomWriteFailed] else [])
    let t2 : List CloseStep := [CloseStep.closeIndex, CloseStep.closeData] ++
      (if bloomAttempt then [CloseStep.writeBloom] else [])
    match w.metaData, w.metaDataFile with
    | some md, some mf =>
      let md1 := { md with maxKey := w.lastKey, dataBytes := dw.size,
                           indexBytes := iw.size, totalBytes := dw.size + iw.size }
      let metaCloseErr : GoErr := if f.metaCloseFail then [ErrKind.metaCloseFailed] else []
      let t3 := t2 ++ [CloseStep.writeMeta, CloseStep.closeMeta]
      if f.marshalFail then
        ({ w1 with metaData := some md1, metaDataFile := some { mf with closed := true } },
         e2 ++ [ErrKind.marshalFailed] ++ metaCloseErr, t3)
      else if f.metaWriteFail then
        ({ w1 with metaData := some md1, metaDataFile := some { mf with closed := true } },
         e2 ++ [ErrKind.metaWriteFailed] ++ metaCloseErr, t3)
      else
        ({ w1 with metaData := some md1,
                   metaDataFile := some ({ closed := true, written := some md1 } : MetaFile) },
         e2 ++ metaCloseErr, t3)
    | _, _ => (w1, e2, t2)
  | _, _ => (w, [ErrKind.nilPanic], [])

/-- One writer option, as in Go: a mutation of the options record. -/
abbrev WriterOption := SSTableWriterOptions → SSTableWriterOptions

/-- Apply a list of writer options to a base options record, first to
last. -/
def applyOptions (base : SSTableWriterOptions) (os : List WriterOption) :
    SSTableWriterOptions :=
  os.foldl (fun o g => g o) base

/-- The WriteBufferSizeBytes option (sstable_writer.go lines 307-311). -/
def WriteBufferSizeBytes (n : Nat) : WriterOption :=
  fun o => { o with writeBufferSizeBytes := n }

/-- The defaults NewSSTableStreamWriter starts from (sstable_writer.go
lines 216-225). -/
def defaultWriterOptions : SSTableWriterOptions :=
  { basePath := "", enableBloomFilter := true,
    indexCompressionType := CompressionTypeNone,
    dataCompressionType := CompressionTypeSnappy,
    bloomFpProbability := 1 / 100,
    bloomExpectedNumberOfElements := 1000,
    writeBufferSizeBytes := 1024 * 1024 * 4,
    keyComparator := none }

/-- NewSSTableStreamWriter (sstable_writer.go lines 215-245): apply the
options over the defaults, then validate the base path, the comparator
and the bloom sizing. -/
def NewSSTableStreamWriter (os : List WriterOption) :
    Except GoErr SSTableStreamWriter :=
  let opts := applyOptions defaultWriterOptions os
  if opts.basePath = "" then Except.error [ErrKind.invalidArgument]
  else match opts.keyComparator with
    | none => Except.error [ErrKind.invalidArgument]
    | some _ =>
      if opts.bloomExpectedNumberOfElements = 0 then
        Except.error [ErrKind.invalidArgument]
      else Except.ok (freshWriter opts)

/-- NewSSTableSimpleWriter (sstable_writer.go lines 247-254): append a
4096-byte write-buffer option after the caller's options and build a
stream writer; the simple writer is just that wrapped stream writer. -/
def NewSSTableSimpleWriter (os : List WriterOption) :
    Except GoErr SSTableStreamWriter :=
  NewSSTableStreamWriter (os ++ [WriteBufferSizeBytes 4096])

/-- The iterator loop of WriteSkipListMap (sstable_writer.go lines
194-208): the skip-list iterator is an in-order list of (key, value)
pairs terminated by the Done sentinel; each element is written with
WriteNext, stopping at the first error.  The fault list supplies one
fault record per call. -/
def writeSkipListLoop (w : SSTableStreamWriter)
    (it : List (Bytes × Option Bytes)) (wf : List WriteFaults) :
    SSTableStreamWriter × GoErr :=
  match it with
  | [] => (w, [])
  | (k, v) :: rest =>
    let r := WriteNext w k v (wf.headD {})
    if r.2 = [] then writeSkipListLoop r.1 rest wf.tail
    else (r.1, r.2)

/-- WriteSkipListMap (sstable_writer.go lines 184-211): open the stream
writer (returning on failure without closing), drive the iterator loop,
and close through a deferred error join. -/
def WriteSkipListMap (w : SSTableStreamWriter)
    (m : List (Bytes × Option Bytes)) (fs : FileSys) (ofl : OpenFaults)
    (wf : List WriteFaults) (cf : CloseFaults) :
    SSTableStreamWriter × FileSys × GoErr :=
  let r := Open w fs ofl
  if r.2.2 ≠ [] then r
  else
    let r2 := writeSkipListLoop r.1 m wf
    let r3 := Close r2.1 cf
    (r3.1, r.2.1, r2.2 ++ r3.2.1)

/-- Modelled from the spec: the hand-rolled equivalent of
WriteSkipListMap, as the spec describes it: call Open, then WriteNext for
each pair of the map in iterator order stopping at the first error, then
Close, joining the write error with the close error. -/
def handRolledLoop (w : SSTableStreamWriter)
    (m : List (Bytes × Option Bytes)) (wf : List WriteFaults) :
    SSTableStreamWriter × GoErr :=
  match m with
  | [] => (w, [])
  | (k, v) :: rest =>
    let r := WriteNext w k v (wf.headD {})
    if r.2 = [] then handRolledLoop r.1 rest wf.tail
    else (r.1, r.2)

/-- Modelled from the spec: Open, then the hand-rolled WriteNext loop,
then Close. -/
def handRolledWriteAll (w : SSTableStreamWriter)
    (m : List (Bytes × Option Bytes)) (fs : FileSys) (ofl : OpenFaults)
    (wf : List WriteFaults) (cf : CloseFaults) :
    SSTableStreamWriter × FileSys × GoErr :=
  let r := Open w fs ofl
  if r.2.2 ≠ [] then r
  else
    let r2 := handRolledLoop r.1 m wf
    let r3 := Close r2.1 cf
    (r3.1, r.2.1, r2.2 ++ r3.2.1)

/-- One scripted WriteNext call of a run: key, value and injected
faults. -/
structure WriteOp where
  key : Bytes
  value : Option Bytes
  faults : WriteFaults

/-- Execute a list of WriteNext calls against a writer, collecting the
keys of the calls that returned no error (the successfully written
keys). -/
def runWrites : SSTableStreamWriter → List WriteOp →
    SSTableStreamWriter × List Bytes
  | w, [] => (w, [])
  | w, op :: ops =>
    let r := WriteNext w op.key op.value op.faults
    let rest := runWrites r.1 ops
    (rest.1, (if r.2 = [] then [op.key] else []) ++ rest.2)

/-- The keys of the calls of a run that get past the pre-append checks
(these are the calls that overwrite last_key, whether or not their
appends succeed). -/
def passKeys : SSTableStreamWriter → List WriteOp → List Bytes
  | _, [] => []
  | w, op :: ops =>
    (if checkPasses w op.key then [op.key] else []) ++
      passKeys (WriteNext w op.key op.value op.faults).1 ops

/-- A concrete comparator for test inputs: compare byte strings by
length.  It is transitive and reflexively zero, which is all the theorems
ask of a comparator. -/
def lenCmp (a b : Bytes) : Int := (a.length : Int) - (b.length : Int)

/-- Concrete options used by witnesses: bloom enabled, length
comparator. -/
def testOptions : SSTableWriterOptions :=
  { basePath := "t", indexCompressionType := CompressionTypeNone,
    dataCompressionType := CompressionTypeSnappy,
    enableBloomFilter := true, bloomExpectedNumberOfElements := 1000,
    bloomFpProbability := 1 / 100, writeBufferSizeBytes := 4096,
    keyComparator := some lenCmp }

/-- Concrete options with the bloom filter disabled. -/
def testOptionsNoBloom : SSTableWriterOptions :=
  { testOptions with enableBloomFilter := false }

/-- A concrete opened writer with bloom enabled. -/
def wOpened : SSTableStreamWriter :=
  (Open (freshWriter testOptions) ({ dirExists := true, files := [] }) {}).1

/-- A concrete opened writer with bloom disabled. -/
def wOpenedNB : SSTableStreamWriter :=
  (Open (freshWriter testOptionsNoBloom) ({ dirExists := true, files := [] }) {}).1

/-- A concrete writer that has been opened and closed. -/
def wClosed : SSTableStreamWriter := (Close wOpened {}).1

/-! ### Step lemmas about the phases of WriteNext -/

lemma writeNextRecord_fields (w : SSTableStreamWriter) (k : Bytes)
    (v : Option Bytes) (f : WriteFaults) :
    (writeNextRecord w k v f).1.lastKey = w.lastKey ∧
    (writeNextRecord w k v f).1.opts = w.opts ∧
    (writeNextRecord w k v f).1.bloomFilter = w.bloomFilter ∧
    (writeNextRecord w k v f).1.metaDataFile = w.metaDataFile ∧
    (writeNextRecord w k v f).1.metaData.map (fun m => m.minKey) =
      w.metaData.map (fun m => m.minKey) ∧
    (writeNextRecord w k v f).1.metaData.isSome = w.metaData.isSome ∧
    (writeNextRecord w k v f).1.indexWriter.isSome = w.indexWriter.isSome ∧
    (writeNextRecord w k v f).1.dataWriter.isSome = w.dataWriter.isSome := by
  simp only [writeNextRecord, recWrite, idxWrite, recSeek]
  repeat' split
  all_goals simp_all

lemma writeNextRecord_success_counters (w : SSTableStreamWriter) (k : Bytes)
    (v : Option Bytes) (f : WriteFaults)
    (h : (writeNextRecord w k v f).2 = []) :
    (writeNextRecord w k v f).1.metaData.map (fun m => m.numRecords) =
      w.metaData.map (fun m => m.numRecords + 1) ∧
    (writeNextRecord w k v f).1.metaData.map (fun m => m.nullValues) =
      w.metaData.map (fun m => m.nullValues + (if v = none then 1 else 0)) := by
  revert h
  simp only [writeNextRecord, recWrite, idxWrite, recSeek]
  repeat' split
  all_goals simp_all

lemma writeNextRecord_fail_metaData (w : SSTableStreamWriter) (k : Bytes)
    (v : Option Bytes) (f : WriteFaults)
    (h : (writeNextRecord w k v f).2 ≠ []) :
    (writeNextRecord w k v f).1.metaData = w.metaData := by
  revert h
  simp only [writeNextRecord, recWrite, idxWrite, recSeek]
  repeat' split
  all_goals simp_all

lemma writeNextBloom_fields (w : SSTableStreamWriter) (k : Bytes)
    (v : Option Bytes) (f : WriteFaults) :
    (writeNextBloom w k v f).1.lastKey = w.lastKey ∧
    (writeNextBloom w k v f).1.opts = w.opts ∧
    (writeNextBloom w k v f).1.metaDataFile = w.metaDataFile ∧
    (writeNextBloom w k v f).1.metaData.map (fun m => m.minKey) =
      w.metaData.map (fun m => m.minKey) ∧
    (writeNextBloom w k v f).1.metaData.isSome = w.metaData.isSome ∧
    (writeNextBloom w k v f).1.indexWriter.isSome = w.indexWriter.isSome ∧
    (writeNextBloom w k v f).1.dataWriter.isSome = w.dataWriter.isSome := by
  unfold writeNextBloom
  split
  · split
    · simp
    · rename_i bf heq
      have h := writeNextRecord_fields
        { w with bloomFilter := some (bf ++ [fnvNew64 k]) } k v f
      simp_all
  · have h := writeNextRecord_fields w k v f
    simp_all

lemma writeNextBloom_bloom (w : SSTableStreamWriter) (k : Bytes)
    (v : Option Bytes) (f : WriteFaults)
    (hen : w.opts.enableBloomFilter = true) (bf : List Nat)
    (hbf : w.bloomFilter = some bf) :
    (writeNextBloom w k v f).1.bloomFilter = some (bf ++ [fnvNew64 k]) := by
  have h := writeNextRecord_fields
    { w with bloomFilter := some (bf ++ [fnvNew64 k]) } k v f
  simp only [writeNextBloom, hen, hbf, if_true]
  simp_all

lemma writeNextBloom_success_counters (w : SSTableStreamWriter) (k : Bytes)
    (v : Option Bytes) (f : WriteFaults)
    (h : (writeNextBloom w k v f).2 = []) :
    (writeNextBloom w k v f).1.metaData.map (fun m => m.numRecords) =
      w.metaData.map (fun m => m.numRecords + 1) ∧
    (writeNextBloom w k v f).1.metaData.map (fun m => m.nullValues) =
      w.metaData.map (fun m => m.nullValues + (if v = none then 1 else 0)) := by
  revert h
  unfold writeNextBloom
  split
  · split
    · simp
    · rename_i bf heq
      intro h
      have hc := writeNextRecord_success_counters
        { w with bloomFilter := some (bf ++ [fnvNew64 k]) } k v f h
      simp_all
  · exact fun h => writeNextRecord_success_counters w k v f h

lemma writeNextBloom_fail_metaData (w : SSTableStreamWriter) (k : Bytes)
    (v : Option Bytes) (f : WriteFaults)
    (h : (writeNextBloom w k v f).2 ≠ []) :
    (writeNextBloom w k v f).1.metaData = w.metaData := by
  revert h
  unfold writeNextBloom
  split
  · split
    · simp
    · rename_i bf heq
      intro h
      have hc := writeNextRecord_fail_metaData
        { w with bloomFilter := some (bf ++ [fnvNew64 k]) } k v f h
      simp_all
  · exact fun h => writeNextRecord_fail_metaData w k v f h

/-! ### Branch equations of WriteNext -/

lemma writeNext_eq_dup (w : SSTableStreamWriter) (k : Bytes)
    (v : Option Bytes) (f : WriteFaults) (lk : Bytes)
    (cmp : Bytes → Bytes → Int) (hlk : w.lastKey = some lk)
    (hcmp : w.opts.keyComparator = some cmp) (h0 : cmp lk k = 0) :
    WriteNext w k v f = (w, [ErrKind.duplicateKey]) := by
  simp [WriteNext, hlk, hcmp, h0]

lemma writeNext_eq_outOfOrder (w : SSTableStreamWriter) (k : Bytes)
    (v : Option Bytes) (f : WriteFaults) (lk : Bytes)
    (cmp : Bytes → Bytes → Int) (hlk : w.lastKey = some lk)
    (hcmp : w.opts.keyComparator = some cmp) (hgt : 0 < cmp lk k) :
    WriteNext w k v f = (w, [ErrKind.outOfOrderKey]) := by
  simp only [WriteNext, hlk, hcmp]
  rw [if_neg (by omega), if_pos hgt]

lemma writeNext_eq_pass_some (w : SSTableStreamWriter) (k : Bytes)
    (v : Option Bytes) (f : WriteFaults) (lk : Bytes)
    (cmp : Bytes → Bytes → Int) (hlk : w.lastKey = some lk)
    (hcmp : w.opts.keyComparator = some cmp) (hlt : cmp lk k < 0) :
    WriteNext w k v f = writeNextBloom { w with lastKey := some k } k v f := by
  simp only [WriteNext, hlk, hcmp]
  rw [if_neg (by omega), if_neg (by omega)]

lemma writeNext_eq_notOpened (w : SSTableStreamWriter) (k : Bytes)
    (v : Option Bytes) (f : WriteFaults) (hlk : w.lastKey = none)
    (hmd : w.metaData = none) :
    WriteNext w k v f = (w, [ErrKind.tableNotOpened]) := by
  simp [WriteNext, hlk, hmd]

lemma writeNext_eq_pass_none (w : SSTableStreamWriter) (k : Bytes)
    (v : Option Bytes) (f : WriteFaults) (md : MetaData)
    (hlk : w.lastKey = none) (hmd : w.metaData = some md) :
    WriteNext w k v f = writeNextBloom
      { w with metaData := some { md with minKey := some k },
               lastKey := some k } k v f := by
  simp [WriteNext, hlk, hmd]

lemma writeNext_eq_nilCmp (w : SSTableStreamWriter) (k : Bytes)
    (v : Option Bytes) (f : WriteFaults) (lk : Bytes)
    (hlk : w.lastKey = some lk) (hcmp : w.opts.keyComparator = none) :
    WriteNext w k v f = (w, [ErrKind.nilPanic]) := by
  simp [WriteNext, hlk, hcmp]

/-- A WriteNext call that does not get past the pre-append checks leaves
the writer untouched and returns an error. -/
lemma writeNext_checkFail (w : SSTableStreamWriter) (k : Bytes)
    (v : Option Bytes) (f : WriteFaults) (h : checkPasses w k = false) :
    (WriteNext w k v f).1 = w ∧ (WriteNext w k v f).2 ≠ [] := by
  match hlk : w.lastKey with
  | some lk =>
    match hcmp : w.opts.keyComparator with
    | none => rw [writeNext_eq_nilCmp w k v f lk hlk hcmp]; simp
    | some cmp =>
      have hge : ¬ cmp lk k < 0 := by
        simpa [checkPasses, hlk, hcmp] using h
      rcases eq_or_lt_of_le (not_lt.mp hge) with h0 | hgt
      · rw [writeNext_eq_dup w k v f lk cmp hlk hcmp h0.symm]; simp
      · rw [writeNext_eq_outOfOrder w k v f lk cmp hlk hcmp hgt]; simp
  | none =>
    match hmd : w.metaData with
    | none => rw [writeNext_eq_notOpened w k v f hlk hmd]; simp
    | some md =>
      exact absurd h (by simp [checkPasses, hlk, hmd])

/-- A WriteNext call that gets past the pre-append checks overwrites
last_key with the new key, keeps the options and meta file, records the
key as min_key when it is the first such call, preserves the presence of
the component writers, and - when the bloom filter is enabled and
allocated - adds the FNV-64 hash of the key to it, regardless of whether
the appends later fail. -/
lemma writeNext_checkPass (w : SSTableStreamWriter) (k : Bytes)
    (v : Option Bytes) (f : WriteFaults) (h : checkPasses w k = true) :
    (WriteNext w k v f).1.lastKey = some k ∧
    (WriteNext w k v f).1.opts = w.opts ∧
    (WriteNext w k v f).1.metaDataFile = w.metaDataFile ∧
    ((WriteNext w k v f).1.metaData.map (fun m => m.minKey) =
      match w.lastKey with
      | none => some (some k)
      | some _ => w.metaData.map (fun m => m.minKey)) ∧
    ((WriteNext w k v f).1.metaData.isSome =
      match w.lastKey with
      | none => true
      | some _ => w.metaData.isSome) ∧
    (WriteNext w k v f).1.indexWriter.isSome = w.indexWriter.isSome ∧
    (WriteNext w k v f).1.dataWriter.isSome = w.dataWriter.isSome ∧
    (w.opts.enableBloomFilter = true → ∀ bf, w.bloomFilter = some bf →
      (WriteNext w k v f).1.bloomFilter = some (bf ++ [fnvNew64 k])) := by
  match hlk : w.lastKey with
  | some lk =>
    match hcmp : w.opts.keyComparator with
    | none => exact absurd h (by simp [checkPasses, hlk, hcmp])
    | some cmp =>
      have hlt : cmp lk k < 0 := by
        have := h
        simp only [checkPasses, hlk, hcmp] at this
        exact of_decide_eq_true this
      rw [writeNext_eq_pass_some w k v f lk cmp hlk hcmp hlt]
      have hf := writeNextBloom_fields { w with lastKey := some k } k v f
      have hb := fun hen bf hbf =>
        writeNextBloom_bloom { w with lastKey := some k } k v f hen bf hbf
      refine ⟨by simp_all, by simp_all, by simp_all, by simp_all, by simp_all,
        by simp_all, by simp_all, by simp_all⟩
  | none =>
    match hmd : w.metaData with
    | none => exact absurd h (by simp [checkPasses, hlk, hmd])
    | some md =>
      rw [writeNext_eq_pass_none w k v f md hlk hmd]
      have hf := writeNextBloom_fields
        { w with metaData := some { md with minKey := some k }, lastKey := some k } k v f
      have hb := fun hen bf hbf => writeNextBloom_bloom
        { w with metaData := some { md with minKey := some k }, lastKey := some k } k v f hen bf hbf
      refine ⟨by simp_all, by simp_all, by simp_all, by simp_all, by simp_all,
        by simp_all, by simp_all, by simp_all⟩

/-- A successful WriteNext call got past the pre-append checks. -/
lemma writeNext_success_checkPasses (w : SSTableStreamWriter) (k : Bytes)
    (v : Option Bytes) (f : WriteFaults) (h : (WriteNext w k v f).2 = []) :
    checkPasses w k = true := by
  cases hcp : checkPasses w k
  · exact absurd h (writeNext_checkFail w k v f hcp).2
  · rfl

/-- A successful WriteNext call increments num_records and increments
null_values exactly when the value is the nil slice. -/
lemma writeNext_success_counters (w : SSTableStreamWriter) (k : Bytes)
    (v : Option Bytes) (f : WriteFaults) (h : (WriteNext w k v f).2 = []) :
    (WriteNext w k v f).1.metaData.map (fun m => m.numRecords) =
      w.metaData.map (fun m => m.numRecords + 1) ∧
    (WriteNext w k v f).1.metaData.map (fun m => m.nullValues) =
      w.metaData.map (fun m => m.nullValues + (if v = none then 1 else 0)) := by
  have hcp := writeNext_success_checkPasses w k v f h
  match hlk : w.lastKey with
  | some lk =>
    match hcmp : w.opts.keyComparator with
    | none => exact absurd hcp (by simp [checkPasses, hlk, hcmp])
    | some cmp =>
      have hlt : cmp lk k < 0 := by
        have := hcp
        simp only [checkPasses, hlk, hcmp] at this
        exact of_decide_eq_true this
      rw [writeNext_eq_pass_some w k v f lk cmp hlk hcmp hlt] at h ⊢
      exact writeNextBloom_success_counters { w with lastKey := some k } k v f h
  | none =>
    match hmd : w.metaData with
    | none => exact absurd hcp (by simp [checkPasses, hlk, hmd])
    | some md =>
      rw [writeNext_eq_pass_none w k v f md hlk hmd] at h ⊢
      have hc := writeNextBloom_success_counters
        { w with metaData := some { md with minKey := some k }, lastKey := some k } k v f h
      simp_all

/-- A failed WriteNext call leaves both counters unchanged. -/
lemma writeNext_fail_counters (w : SSTableStreamWriter) (k : Bytes)
    (v : Option Bytes) (f : WriteFaults) (h : (WriteNext w k v f).2 ≠ []) :
    (WriteNext w k v f).1.metaData.map (fun m => m.numRecords) =
      w.metaData.map (fun m => m.numRecords) ∧
    (WriteNext w k v f).1.metaData.map (fun m => m.nullValues) =
      w.metaData.map (fun m => m.nullValues) := by
  cases hcp : checkPasses w k
  · rw [(writeNext_checkFail w k v f hcp).1]
    exact ⟨rfl, rfl⟩
  · match hlk : w.lastKey with
    | some lk =>
      match hcmp : w.opts.keyComparator with
      | none => exact absurd hcp (by simp [checkPasses, hlk, hcmp])
      | some cmp =>
        have hlt : cmp lk k < 0 := by
          have := hcp
          simp only [checkPasses, hlk, hcmp] at this
          exact of_decide_eq_true this
        rw [writeNext_eq_pass_some w k v f lk cmp hlk hcmp hlt] at h ⊢
        rw [writeNextBloom_fail_metaData { w with lastKey := some k } k v f h]
        exact ⟨rfl, rfl⟩
    | none =>
      match hmd : w.metaData with
      | none => exact absurd hcp (by simp [checkPasses, hlk, hmd])
      | some md =>
        rw [writeNext_eq_pass_none w k v f md hlk hmd] at h ⊢
        rw [writeNextBloom_fail_metaData
          { w with metaData := some { md with minKey := some k }, lastKey := some k } k v f h]
        simp [hmd]

/-- In any run of WriteNext calls, the last key recorded in the writer,
followed by the keys of the successful calls, forms a strictly ascending
chain under a transitive comparator. -/
lemma runWrites_chain (cmp : Bytes → Bytes → Int)
    (htrans : ∀ a b c, cmp a b < 0 → cmp b c < 0 → cmp a c < 0) :
    ∀ (ops : List WriteOp) (w : SSTableStreamWriter),
      w.opts.keyComparator = some cmp →
      List.Chain' (fun a b => cmp a b < 0)
        ((match w.lastKey with | none => [] | some lk => [lk]) ++ (runWrites w ops).2)
  | [], w, _ => by
    cases hlk : w.lastKey <;> simp [runWrites, hlk]
  | op :: ops, w, hcmp => by
    cases hcp : checkPasses w op.key
    · have hcf := writeNext_checkFail w op.key op.value op.faults hcp
      have ih := runWrites_chain cmp htrans ops w hcmp
      simp only [runWrites]
      rw [if_neg hcf.2, hcf.1]
      simpa using ih
    · have hps := writeNext_checkPass w op.key op.value op.faults hcp
      have hcmp1 : (WriteNext w op.key op.value op.faults).1.opts.keyComparator = some cmp := by
        rw [hps.2.1, hcmp]
      have ih := runWrites_chain cmp htrans ops
        (WriteNext w op.key op.value op.faults).1 hcmp1
      rw [hps.1] at ih
      simp only [List.singleton_append] at ih
      simp only [runWrites]
      by_cases he : (WriteNext w op.key op.value op.faults).2 = []
      · rw [if_pos he]
        match hlk : w.lastKey with
        | none => simpa using ih
        | some lk =>
          have hlt : cmp lk op.key < 0 := by
            have := hcp
            simp only [checkPasses, hlk, hcmp] at this
            exact of_decide_eq_true this
          have hch : List.Chain' (fun a b => cmp a b < 0)
              (lk :: op.key ::
                (runWrites (WriteNext w op.key op.value op.faults).1 ops).2) :=
            List.chain'_cons.mpr ⟨hlt, ih⟩
          simpa using hch
      · rw [if_neg he]
        match hlk : w.lastKey with
        | none => simpa using ih.tail
        | some lk =>
          have hlt : cmp lk op.key < 0 := by
            have := hcp
            simp only [checkPasses, hlk, hcmp] at this
            exact of_decide_eq_true this
          have hrest := (List.chain'_cons'.mp ih).2
          have hhead := (List.chain'_cons'.mp ih).1
          simp only [List.singleton_append]
          exact List.chain'_cons'.mpr
            ⟨fun y hy => htrans lk op.key y hlt (hhead y hy), hrest⟩

/-- Claim C1: after at least one write, WriteNext fails with the
duplicate-key error when the comparator reports the new key equal to the
previously recorded key and with the out-of-order-key error when it
reports the previous key greater; consequently, over any run against a
transitive comparator, the keys of the successful WriteNext calls are
strictly increasing. -/
theorem writeNext_ordering_and_ascending (cmp : Bytes → Bytes → Int)
    (htrans : ∀ a b c, cmp a b < 0 → cmp b c < 0 → cmp a c < 0) :
    (∀ w lk k v f, w.opts.keyComparator = some cmp → w.lastKey = some lk →
        (cmp lk k = 0 → WriteNext w k v f = (w, [ErrKind.duplicateKey])) ∧
        (0 < cmp lk k → WriteNext w k v f = (w, [ErrKind.outOfOrderKey]))) ∧
    (∀ w ops, w.opts.keyComparator = some cmp → w.lastKey = none →
        List.Chain' (fun a b => cmp a b < 0) (runWrites w ops).2) := by
  constructor
  · intro w lk k v f hcmp hlk
    exact ⟨writeNext_eq_dup w k v f lk cmp hlk hcmp,
           writeNext_eq_outOfOrder w k v f lk cmp hlk hcmp⟩
  · intro w ops hcmp hlk
    have h := runWrites_chain cmp htrans ops w hcmp
    rw [hlk] at h
    simpa using h

/-- The length comparator is transitive in its strict part. -/
lemma lenCmp_trans : ∀ a b c : Bytes,
    lenCmp a b < 0 → lenCmp b c < 0 → lenCmp a c < 0 := by
  intro a b c
  unfold lenCmp
  omega

/-- The writer wOpened after one successful write of key 0. -/
def w1Key0 : SSTableStreamWriter :=
  (WriteNext wOpened [0] (some [1]) ({} : WriteFaults)).1

/-- Witness for C1: a duplicate write of the single-byte key fails with
the duplicate-key error on a concrete writer, and a concrete run yields
an ascending chain of successful keys. -/
theorem writeNext_ordering_and_ascending_witness :
    WriteNext w1Key0 [9] none ({} : WriteFaults) = (w1Key0, [ErrKind.duplicateKey]) ∧
    List.Chain' (fun a b => lenCmp a b < 0)
      (runWrites wOpened
        [⟨[0], some [1], {}⟩, ⟨[0, 0], some [2], {}⟩]).2 := by
  constructor
  · exact ((writeNext_ordering_and_ascending lenCmp lenCmp_trans).1
      w1Key0 [0] [9] none {} rfl rfl).1 (by decide)
  · exact (writeNext_ordering_and_ascending lenCmp lenCmp_trans).2
      wOpened [⟨[0], some [1], {}⟩, ⟨[0, 0], some [2], {}⟩] rfl rfl

/-- Claim C7 (amended): a successful WriteNext increments num_records by
one and increments null_values exactly when the value is the nil slice;
an empty but non-nil value does not increment null_values. -/
theorem writeNext_counter_updates (w : SSTableStreamWriter) (k : Bytes)
    (v : Option Bytes) (f : WriteFaults) (h : (WriteNext w k v f).2 = []) :
    (WriteNext w k v f).1.metaData.map (fun m => m.numRecords) =
      w.metaData.map (fun m => m.numRecords + 1) ∧
    (WriteNext w k v f).1.metaData.map (fun m => m.nullValues) =
      w.metaData.map (fun m => m.nullValues + (if v = none then 1 else 0)) :=
  writeNext_success_counters w k v f h

/-- Witness for C7: on a concrete opened writer, a successful write of
the nil value bumps num_records to one and null_values to one. -/
theorem writeNext_counter_updates_witness :
    (WriteNext wOpenedNB [0] none ({} : WriteFaults)).1.metaData.map (fun m => m.numRecords) =
      wOpenedNB.metaData.map (fun m => m.numRecords + 1) ∧
    (WriteNext wOpenedNB [0] none ({} : WriteFaults)).1.metaData.map (fun m => m.nullValues) =
      wOpenedNB.metaData.map (fun m => m.nullValues +
        (if (none : Option Bytes) = none then 1 else 0)) :=
  writeNext_counter_updates wOpenedNB [0] none {} (by decide)

/-- Counterexample to C7 as stated: writing an empty but non-nil value
succeeds (num_records becomes one) yet null_values stays zero, so "an
empty value increments null_values" fails on the code, which tests the
Go slice for nil, not for emptiness. -/
theorem writeNext_empty_value_counterexample :
    (WriteNext wOpenedNB [0] (some []) ({} : WriteFaults)).2 = [] ∧
    (WriteNext wOpenedNB [0] (some []) ({} : WriteFaults)).1.metaData.map
      (fun m => m.numRecords) = some 1 ∧
    (WriteNext wOpenedNB [0] (some []) ({} : WriteFaults)).1.metaData.map
      (fun m => m.nullValues) = some 0 := by
  decide

/-- Claim C10: a WriteNext call that passes the pre-append checks but
then fails leaves both counters untouched, yet has already overwritten
last_key with the key and (bloom enabled and allocated) added the key's
hash to the bloom filter; an immediate retry of the same key therefore
fails with the duplicate-key error although the key was never written. -/
theorem writeNext_failed_append_poisons_writer (w : SSTableStreamWriter)
    (k : Bytes) (v : Option Bytes) (f : WriteFaults)
    (cmp : Bytes → Bytes → Int) (hcp : checkPasses w k = true)
    (hcmp : w.opts.keyComparator = some cmp) (hrefl : cmp k k = 0)
    (herr : (WriteNext w k v f).2 ≠ []) :
    (WriteNext w k v f).1.metaData.map (fun m => m.numRecords) =
      w.metaData.map (fun m => m.numRecords) ∧
    (WriteNext w k v f).1.metaData.map (fun m => m.nullValues) =
      w.metaData.map (fun m => m.nullValues) ∧
    (WriteNext w k v f).1.lastKey = some k ∧
    (w.opts.enableBloomFilter = true → ∀ bf, w.bloomFilter = some bf →
      (WriteNext w k v f).1.bloomFilter = some (bf ++ [fnvNew64 k])) ∧
    (∀ v' f', (WriteNext (WriteNext w k v f).1 k v' f').2 = [ErrKind.duplicateKey]) := by
  have hps := writeNext_checkPass w k v f hcp
  have hfc := writeNext_fail_counters w k v f herr
  refine ⟨hfc.1, hfc.2, hps.1, hps.2.2.2.2.2.2.2, ?_⟩
  intro v' f'
  have hcmp1 : (WriteNext w k v f).1.opts.keyComparator = some cmp := by
    rw [hps.2.1, hcmp]
  rw [writeNext_eq_dup (WriteNext w k v f).1 k v' f' k cmp hps.1 hcmp1 hrefl]

/-- The writer wOpenedNB after one successful write of key 0. -/
def w1Key0NB : SSTableStreamWriter :=
  (WriteNext wOpenedNB [0] (some [1]) ({} : WriteFaults)).1

/-- Faults that make the data append fail. -/
def wfDataFail : WriteFaults := { dataFail := true }

/-- Witness for C10: on a concrete writer a data-append failure leaves
last_key at the failed key and makes an immediate retry of that key fail
as a duplicate. -/
theorem writeNext_failed_append_poisons_writer_witness :
    (WriteNext w1Key0NB [0, 0] (some [2]) wfDataFail).1.lastKey = some [0, 0] ∧
    (∀ v' f', (WriteNext (WriteNext w1Key0NB [0, 0] (some [2]) wfDataFail).1
      [0, 0] v' f').2 = [ErrKind.duplicateKey]) := by
  have h := writeNext_failed_append_poisons_writer w1Key0NB [0, 0] (some [2])
    wfDataFail lenCmp (by decide) rfl (by decide) (by decide)
  exact ⟨h.2.2.1, h.2.2.2.2⟩

/-- Claim C3 (amended): when the bloom filter is enabled, every key that
passes the pre-append checks has its FNV-64 hash (Go's fnv.New64, the
FNV-1 variant, not FNV-64a) appended to the bloom filter. -/
theorem writeNext_bloom_inserts_fnv64 (w : SSTableStreamWriter) (k : Bytes)
    (v : Option Bytes) (f : WriteFaults) (bf : List Nat)
    (hcp : checkPasses w k = true) (hen : w.opts.enableBloomFilter = true)
    (hbf : w.bloomFilter = some bf) :
    (WriteNext w k v f).1.bloomFilter = some (bf ++ [fnvNew64 k]) :=
  (writeNext_checkPass w k v f hcp).2.2.2.2.2.2.2 hen bf hbf

/-- Witness for C3: on a concrete opened writer the first write inserts
exactly the FNV-64 hash of the key. -/
theorem writeNext_bloom_inserts_fnv64_witness :
    (WriteNext wOpened [0] (some [1]) ({} : WriteFaults)).1.bloomFilter =
      some ([] ++ [fnvNew64 [0]]) :=
  writeNext_bloom_inserts_fnv64 wOpened [0] (some [1]) {} [] (by decide) rfl rfl

/-- Counterexample to C3 as stated: the value the writer inserts into the
bloom filter for the key 97 is the FNV-64 (FNV-1) hash, and that value
differs from the FNV-64a hash of the same key, so the inserted value is
not the FNV-64a hash the claim names. -/
theorem writeNext_bloom_not_fnv64a_counterexample :
    (WriteNext wOpened [97] (some [1]) ({} : WriteFaults)).1.bloomFilter =
      some [fnvNew64 [97]] ∧
    fnvNew64 [97] ≠ fnv64a [97] := by
  decide

/-- A write against a closed data writer fails inside the record phase. -/
lemma writeNextRecord_closed_err (w : SSTableStreamWriter) (k : Bytes)
    (v : Option Bytes) (f : WriteFaults) (dw : RecWriter)
    (hdw : w.dataWriter = some dw) (hcl : dw.closed = true) :
    (writeNextRecord w k v f).2 ≠ [] := by
  simp [writeNextRecord, recWrite, hdw, hcl]

/-- A write against a closed data writer fails from the bloom phase on. -/
lemma writeNextBloom_closed_err (w : SSTableStreamWriter) (k : Bytes)
    (v : Option Bytes) (f : WriteFaults) (dw : RecWriter)
    (hdw : w.dataWriter = some dw) (hcl : dw.closed = true) :
    (writeNextBloom w k v f).2 ≠ [] := by
  unfold writeNextBloom
  split
  · split
    · simp
    · rename_i bf heq
      exact writeNextRecord_closed_err
        { w with bloomFilter := some (bf ++ [fnvNew64 k]) } k v f dw (by simpa using hdw) hcl
  · exact writeNextRecord_closed_err w k v f dw hdw hcl

/-- Claim C8: WriteNext on a fresh writer (before Open) fails with the
not-opened error, and WriteNext on any writer whose data writer has been
closed (after Close) returns an error. -/
theorem writeNext_fresh_or_closed_errors :
    (∀ opts k v f, WriteNext (freshWriter opts) k v f =
      (freshWriter opts, [ErrKind.tableNotOpened])) ∧
    (∀ w k v f dw, w.dataWriter = some dw → dw.closed = true →
      (WriteNext w k v f).2 ≠ []) := by
  constructor
  · intro opts k v f
    exact writeNext_eq_notOpened (freshWriter opts) k v f rfl rfl
  · intro w k v f dw hdw hcl
    match hlk : w.lastKey with
    | some lk =>
      match hcmp : w.opts.keyComparator with
      | none => rw [writeNext_eq_nilCmp w k v f lk hlk hcmp]; simp
      | some cmp =>
        rcases lt_trichotomy (cmp lk k) 0 with hlt | h0 | hgt
        · rw [writeNext_eq_pass_some w k v f lk cmp hlk hcmp hlt]
          exact writeNextBloom_closed_err { w with lastKey := some k } k v f dw
            (by simpa using hdw) hcl
        · rw [writeNext_eq_dup w k v f lk cmp hlk hcmp h0]; simp
        · rw [writeNext_eq_outOfOrder w k v f lk cmp hlk hcmp hgt]; simp
    | none =>
      match hmd : w.metaData with
      | none => rw [writeNext_eq_notOpened w k v f hlk hmd]; simp
      | some md =>
        rw [writeNext_eq_pass_none w k v f md hlk hmd]
        exact writeNextBloom_closed_err
          { w with metaData := some { md with minKey := some k }, lastKey := some k }
          k v f dw (by simpa using hdw) hcl

/-- Witness for C8: the fresh and the closed cases at concrete inputs. -/
theorem writeNext_fresh_or_closed_errors_witness :
    WriteNext (freshWriter testOptions) [0] none ({} : WriteFaults) =
      (freshWriter testOptions, [ErrKind.tableNotOpened]) ∧
    (WriteNext wClosed [0] none ({} : WriteFaults)).2 ≠ [] := by
  refine ⟨writeNext_fresh_or_closed_errors.1 testOptions [0] none {}, ?_⟩
  exact writeNext_fresh_or_closed_errors.2 wClosed [0] none {}
    (wClosed.dataWriter.getD ⟨true, [], 0⟩) (by decide) (by decide)

/-! ### The rollback path: index append fails after a successful data
append -/

/-- Record phase under an injected index failure: the data append went
through, the index append failed, and the writer seeks the data file back
to the snapshot taken before the append.  When the seek succeeds the data
file is exactly as before the call; when it fails the orphan record
stays and the seek error is joined after the index error. -/
lemma writeNextRecord_index_failure (w : SSTableStreamWriter) (k : Bytes)
    (v : Option Bytes) (f : WriteFaults) (dw : RecWriter) (iw : ProtoWriter)
    (hdw : w.dataWriter = some dw) (hdc : dw.closed = false)
    (hwf : ∀ r ∈ dw.records, r.1 < dw.size)
    (hiw : w.indexWriter = some iw) (hic : iw.closed = false)
    (hdf : f.dataFail = false) (hif : f.indexFail = true) :
    (f.seekFail = false →
      (writeNextRecord w k v f).2 = [ErrKind.indexWriteFailed] ∧
      ∃ dw', (writeNextRecord w k v f).1.dataWriter = some dw' ∧
        dw'.records = dw.records ∧ dw'.size = dw.size) ∧
    (f.seekFail = true →
      (writeNextRecord w k v f).2 = [ErrKind.indexWriteFailed, ErrKind.seekFailed] ∧
      ∃ dw', (writeNextRecord w k v f).1.dataWriter = some dw' ∧
        dw'.records = dw.records ++ [(dw.size, v.getD [])]) := by
  have hfilter : (dw.records ++ [(dw.size, v.getD [])]).filter
      (fun r => decide (r.1 < dw.size)) = dw.records := by
    rw [List.filter_append]
    have h1 : dw.records.filter (fun r => decide (r.1 < dw.size)) = dw.records :=
      List.filter_eq_self.mpr (fun a ha => by simpa using hwf a ha)
    simp [h1]
  simp only [writeNextRecord, recWrite, idxWrite, recSeek, hdw, hdc, hdf, hif, hiw,
    hic, Bool.false_eq_true, if_false, if_true]
  constructor
  · intro hs
    rw [hs]
    exact ⟨by simp, _, rfl, by simpa using hfilter, rfl⟩
  · intro hs
    rw [hs]
    exact ⟨by simp, _, rfl, rfl⟩

/-- The index-failure behaviour lifted over the bloom phase. -/
lemma writeNextBloom_index_failure (w : SSTableStreamWriter) (k : Bytes)
    (v : Option Bytes) (f : WriteFaults) (dw : RecWriter) (iw : ProtoWriter)
    (hbf : w.opts.enableBloomFilter = true → w.bloomFilter.isSome = true)
    (hdw : w.dataWriter = some dw) (hdc : dw.closed = false)
    (hwf : ∀ r ∈ dw.records, r.1 < dw.size)
    (hiw : w.indexWriter = some iw) (hic : iw.closed = false)
    (hdf : f.dataFail = false) (hif : f.indexFail = true) :
    (f.seekFail = false →
      (writeNextBloom w k v f).2 = [ErrKind.indexWriteFailed] ∧
      ∃ dw', (writeNextBloom w k v f).1.dataWriter = some dw' ∧
        dw'.records = dw.records ∧ dw'.size = dw.size) ∧
    (f.seekFail = true →
      (writeNextBloom w k v f).2 = [ErrKind.indexWriteFailed, ErrKind.seekFailed] ∧
      ∃ dw', (writeNextBloom w k v f).1.dataWriter = some dw' ∧
        dw'.records = dw.records ++ [(dw.size, v.getD [])]) := by
  unfold writeNextBloom
  split
  · split
    · exfalso
      have h2 := hbf (by assumption)
      simp_all
    · rename_i bf heq
      exact writeNextRecord_index_failure
        { w with bloomFilter := some (bf ++ [fnvNew64 k]) } k v f dw iw
        (by simpa using hdw) hdc hwf (by simpa using hiw) hic hdf hif
  · exact writeNextRecord_index_failure w k v f dw iw hdw hdc hwf hiw hic hdf hif

/-- Claim C2: for every WriteNext call that gets past the pre-append
checks - a first call as well as any later call - when the data append
succeeds but the index append fails, the writer seeks the data writer
back to the Size it snapshotted before the append - so a successful seek
leaves the data file with exactly its pre-call records and size - and the
call returns the index-write error joined with any seek error. -/
theorem writeNext_index_failure_rollback (w : SSTableStreamWriter)
    (k : Bytes) (v : Option Bytes) (f : WriteFaults)
    (dw : RecWriter) (iw : ProtoWriter)
    (hcp : checkPasses w k = true)
    (hbf : w.opts.enableBloomFilter = true → w.bloomFilter.isSome = true)
    (hdw : w.dataWriter = some dw) (hdc : dw.closed = false)
    (hwf : ∀ r ∈ dw.records, r.1 < dw.size)
    (hiw : w.indexWriter = some iw) (hic : iw.closed = false)
    (hdf : f.dataFail = false) (hif : f.indexFail = true) :
    (f.seekFail = false →
      (WriteNext w k v f).2 = [ErrKind.indexWriteFailed] ∧
      ∃ dw', (WriteNext w k v f).1.dataWriter = some dw' ∧
        dw'.records = dw.records ∧ dw'.size = dw.size) ∧
    (f.seekFail = true →
      (WriteNext w k v f).2 = [ErrKind.indexWriteFailed, ErrKind.seekFailed] ∧
      ∃ dw', (WriteNext w k v f).1.dataWriter = some dw' ∧
        dw'.records = dw.records ++ [(dw.size, v.getD [])]) := by
  match hlk : w.lastKey with
  | some lk =>
    match hcmp : w.opts.keyComparator with
    | none => exact absurd hcp (by simp [checkPasses, hlk, hcmp])
    | some cmp =>
      have hlt : cmp lk k < 0 := by
        have := hcp
        simp only [checkPasses, hlk, hcmp] at this
        exact of_decide_eq_true this
      rw [writeNext_eq_pass_some w k v f lk cmp hlk hcmp hlt]
      exact writeNextBloom_index_failure { w with lastKey := some k } k v f dw iw
        (by simpa using hbf) (by simpa using hdw) hdc hwf (by simpa using hiw)
        hic hdf hif
  | none =>
    match hmd : w.metaData with
    | none => exact absurd hcp (by simp [checkPasses, hlk, hmd])
    | some md =>
      rw [writeNext_eq_pass_none w k v f md hlk hmd]
      exact writeNextBloom_index_failure
        { w with metaData := some { md with minKey := some k }, lastKey := some k }
        k v f dw iw (by simpa using hbf) (by simpa using hdw) hdc hwf
        (by simpa using hiw) hic hdf hif

/-- Faults that make the index append fail. -/
def wfIndexFail : WriteFaults := { indexFail := true }

/-- The concrete data writer state of w1Key0NB. -/
def dwAfter1 : RecWriter := w1Key0NB.dataWriter.getD ⟨true, [], 0⟩

/-- The concrete index writer state of w1Key0NB. -/
def iwAfter1 : ProtoWriter := w1Key0NB.indexWriter.getD ⟨true, [], 0⟩

/-- The concrete data writer state of the freshly opened wOpenedNB. -/
def dwFresh : RecWriter := wOpenedNB.dataWriter.getD ⟨true, [], 0⟩

/-- The concrete index writer state of the freshly opened wOpenedNB. -/
def iwFresh : ProtoWriter := wOpenedNB.indexWriter.getD ⟨true, [], 0⟩

/-- Witness for C2: on a concrete writer with one record, an injected
index failure on the second write rolls the data file back to its state
after the first record; on a concrete freshly opened writer, an injected
index failure on the very first write rolls the data file back to empty;
both calls report exactly the index-write error. -/
theorem writeNext_index_failure_rollback_witness :
    ((WriteNext w1Key0NB [0, 0] (some [2]) wfIndexFail).2 = [ErrKind.indexWriteFailed] ∧
     ∃ dw', (WriteNext w1Key0NB [0, 0] (some [2]) wfIndexFail).1.dataWriter = some dw' ∧
       dw'.records = dwAfter1.records ∧ dw'.size = dwAfter1.size) ∧
    ((WriteNext wOpenedNB [0] (some [1]) wfIndexFail).2 = [ErrKind.indexWriteFailed] ∧
     ∃ dw', (WriteNext wOpenedNB [0] (some [1]) wfIndexFail).1.dataWriter = some dw' ∧
       dw'.records = dwFresh.records ∧ dw'.size = dwFresh.size) := by
  constructor
  · exact (writeNext_index_failure_rollback w1Key0NB [0, 0] (some [2]) wfIndexFail
      dwAfter1 iwAfter1 (by decide) (by decide) (by decide) (by decide)
      (by decide) (by decide) (by decide) rfl rfl).1 rfl
  · exact (writeNext_index_failure_rollback wOpenedNB [0] (some [1]) wfIndexFail
      dwFresh iwFresh (by decide) (by decide) (by decide) (by decide)
      (by decide) (by decide) (by decide) rfl rfl).1 rfl

/-! ### Tracking min_key and last_key across a run -/

/-- WriteNext preserves the options, the meta file handle and the
presence of the component writers, whatever its outcome. -/
lemma writeNext_preserves (w : SSTableStreamWriter) (k : Bytes)
    (v : Option Bytes) (f : WriteFaults) :
    (WriteNext w k v f).1.opts = w.opts ∧
    (WriteNext w k v f).1.metaDataFile = w.metaDataFile ∧
    (WriteNext w k v f).1.indexWriter.isSome = w.indexWriter.isSome ∧
    (WriteNext w k v f).1.dataWriter.isSome = w.dataWriter.isSome := by
  cases hcp : checkPasses w k
  · rw [(writeNext_checkFail w k v f hcp).1]
    exact ⟨rfl, rfl, rfl, rfl⟩
  · have h := writeNext_checkPass w k v f hcp
    exact ⟨h.2.1, h.2.2.1, h.2.2.2.2.2.1, h.2.2.2.2.2.2.1⟩

/-- Once the metadata exists it stays in place through WriteNext. -/
lemma writeNext_metaData_isSome (w : SSTableStreamWriter) (k : Bytes)
    (v : Option Bytes) (f : WriteFaults) (h : w.metaData.isSome = true) :
    (WriteNext w k v f).1.metaData.isSome = true := by
  cases hcp : checkPasses w k
  · rw [(writeNext_checkFail w k v f hcp).1]
    exact h
  · have hms := (writeNext_checkPass w k v f hcp).2.2.2.2.1
    cases hlk : w.lastKey <;> rw [hlk] at hms <;> simp_all

/-- The run-level version of writeNext_preserves. -/
lemma runWrites_preserves : ∀ (ops : List WriteOp) (w : SSTableStreamWriter),
    (runWrites w ops).1.opts = w.opts ∧
    (runWrites w ops).1.metaDataFile = w.metaDataFile ∧
    (runWrites w ops).1.indexWriter.isSome = w.indexWriter.isSome ∧
    (runWrites w ops).1.dataWriter.isSome = w.dataWriter.isSome ∧
    (w.metaData.isSome = true → (runWrites w ops).1.metaData.isSome = true)
  | [], w => ⟨rfl, rfl, rfl, rfl, fun h => h⟩
  | op :: ops, w => by
    have h1 := writeNext_preserves w op.key op.value op.faults
    have h3 := fun h => writeNext_metaData_isSome w op.key op.value op.faults h
    have h2 := runWrites_preserves ops (WriteNext w op.key op.value op.faults).1
    simp only [runWrites]
    exact ⟨h2.1.trans h1.1, h2.2.1.trans h1.2.1, h2.2.2.1.trans h1.2.2.1,
      h2.2.2.2.1.trans h1.2.2.2, fun h => h2.2.2.2.2 (h3 h)⟩

/-- With a previous key in place, a run finishes with last_key at the
last check-passing key (or the original when none passes) and never
touches min_key. -/
lemma runWrites_tracking : ∀ (ops : List WriteOp) (w : SSTableStreamWriter)
    (lk : Bytes), w.lastKey = some lk →
    (runWrites w ops).1.lastKey = some ((passKeys w ops).getLastD lk) ∧
    (runWrites w ops).1.metaData.map (fun m => m.minKey) =
      w.metaData.map (fun m => m.minKey)
  | [], w, lk, hlk => by simp [runWrites, passKeys, hlk]
  | op :: ops, w, lk, hlk => by
    cases hcp : checkPasses w op.key
    · have hcf := writeNext_checkFail w op.key op.value op.faults hcp
      simp only [runWrites, passKeys, hcp, if_true, if_false]
      rw [hcf.1]
      simpa using runWrites_tracking ops w lk hlk
    · have hps := writeNext_checkPass w op.key op.value op.faults hcp
      have ih := runWrites_tracking ops
        (WriteNext w op.key op.value op.faults).1 op.key hps.1
      simp only [runWrites, passKeys, hcp, if_true, if_false]
      constructor
      · rw [ih.1, List.singleton_append, List.getLastD_cons]
      · rw [ih.2]
        have hmin := hps.2.2.2.1
        rw [hlk] at hmin
        simpa using hmin

/-- From a writer with no previous key: if no call of the run passes the
checks, last_key stays empty and min_key is untouched; otherwise min_key
becomes the first check-passing key and last_key ends at the last one. -/
lemma runWrites_fromFresh : ∀ (ops : List WriteOp) (w : SSTableStreamWriter),
    w.lastKey = none →
    (passKeys w ops = [] →
      (runWrites w ops).1.lastKey = none ∧
      (runWrites w ops).1.metaData.map (fun m => m.minKey) =
        w.metaData.map (fun m => m.minKey)) ∧
    (∀ p ps, passKeys w ops = p :: ps →
      (runWrites w ops).1.lastKey = some (ps.getLastD p) ∧
      (runWrites w ops).1.metaData.map (fun m => m.minKey) = some (some p))
  | [], w, hlk => by simp [runWrites, passKeys, hlk]
  | op :: ops, w, hlk => by
    cases hcp : checkPasses w op.key
    · have hcf := writeNext_checkFail w op.key op.value op.faults hcp
      simp only [runWrites, passKeys, hcp, if_true, if_false]
      rw [hcf.1]
      simpa using runWrites_fromFresh ops w hlk
    · have hps := writeNext_checkPass w op.key op.value op.faults hcp
      have htr := runWrites_tracking ops
        (WriteNext w op.key op.value op.faults).1 op.key hps.1
      simp only [runWrites, passKeys, hcp, if_true, if_false]
      constructor
      · intro hnil
        exact absurd hnil (by simp)
      · intro p ps hcons
        simp only [List.singleton_append, List.cons.injEq] at hcons
        obtain ⟨hp, hps'⟩ := hcons
        subst hp
        subst hps'
        refine ⟨htr.1, ?_⟩
        rw [htr.2]
        have hmin := hps.2.2.2.1
        rw [hlk] at hmin
        simpa using hmin

/-- Claim C4 (amended): after a run with at least one call that passed
the pre-append checks, the metadata populated by Close carries min_key
equal to the key of the first such call and max_key equal to the key of
the last such call.  (These coincide with the first and last successfully
written keys whenever no failing call passed the checks, but a failed
append still advances last_key, so a trailing failed call shifts
max_key.) -/
theorem close_min_max_keys (w : SSTableStreamWriter) (ops : List WriteOp)
    (cf : CloseFaults) (p : Bytes) (ps : List Bytes)
    (hlk : w.lastKey = none) (hmd : w.metaData.isSome = true)
    (hiw : w.indexWriter.isSome = true) (hdw : w.dataWriter.isSome = true)
    (hmf : w.metaDataFile.isSome = true)
    (hpk : passKeys w ops = p :: ps) :
    (Close (runWrites w ops).1 cf).1.metaData.map (fun m => m.minKey) =
      some (some p) ∧
    (Close (runWrites w ops).1 cf).1.metaData.map (fun m => m.maxKey) =
      some (some (ps.getLastD p)) := by
  have hpres := runWrites_preserves ops w
  have hrun := (runWrites_fromFresh ops w hlk).2 p ps hpk
  obtain ⟨iwf, hiwf⟩ := Option.isSome_iff_exists.mp (hpres.2.2.1.trans hiw)
  obtain ⟨dwf, hdwf⟩ := Option.isSome_iff_exists.mp (hpres.2.2.2.1.trans hdw)
  obtain ⟨mdf, hmdf⟩ := Option.isSome_iff_exists.mp (hpres.2.2.2.2 hmd)
  obtain ⟨mff, hmff⟩ := Option.isSome_iff_exists.mp
    (hpres.2.1.symm ▸ hmf : (runWrites w ops).1.metaDataFile.isSome = true)
  have hminf : mdf.minKey = some p := by
    have h := hrun.2
    rw [hmdf] at h
    simpa using h
  have hmax : (runWrites w ops).1.lastKey = some (ps.getLastD p) := hrun.1
  simp only [Close, hiwf, hdwf, hmdf, hmff, hmax]
  split_ifs <;> simp [hminf]

/-- Counterexample to C4 as stated: in a concrete run, the only
successful write has key 0, then a call with key 00 passes the ordering
check but dies on the data append; Close nevertheless records max_key as
00, not the last successfully written key 0. -/
theorem close_max_key_counterexample :
    (runWrites wOpenedNB
      [⟨[0], some [7], {}⟩, ⟨[0, 0], some [8], wfDataFail⟩]).2 = [[0]] ∧
    ((Close (runWrites wOpenedNB
        [⟨[0], some [7], {}⟩, ⟨[0, 0], some [8], wfDataFail⟩]).1
      ({} : CloseFaults)).1.metaData.map (fun m => m.maxKey)) =
      some (some [0, 0]) := by
  decide

/-- Witness for C4 (amended): the same concrete run, seen through the
amended statement: min_key is the first check-passing key 0, max_key the
last check-passing key 00. -/
theorem close_min_max_keys_witness :
    (Close (runWrites wOpenedNB
        [⟨[0], some [7], {}⟩, ⟨[0, 0], some [8], wfDataFail⟩]).1
      ({} : CloseFaults)).1.metaData.map (fun m => m.minKey) =
      some (some [0]) ∧
    (Close (runWrites wOpenedNB
        [⟨[0], some [7], {}⟩, ⟨[0, 0], some [8], wfDataFail⟩]).1
      ({} : CloseFaults)).1.metaData.map (fun m => m.maxKey) =
      some (some ([[0, 0]].getLastD [0])) :=
  close_min_max_keys wOpenedNB
    [⟨[0], some [7], {}⟩, ⟨[0, 0], some [8], wfDataFail⟩] {} [0] [[0, 0]]
    rfl (by decide) (by decide) (by decide) (by decide) (by decide)

/-- Claim C5: on an opened writer, Close attempts every finalization
step - close index writer, close data writer, write the bloom file when
enabled, serialize-and-write the metadata, close the meta file - whatever
failed before, and returns the join of all step errors in that
deterministic order instead of stopping at the first one. -/
theorem close_attempts_all_steps (w : SSTableStreamWriter)
    (iw : ProtoWriter) (dw : RecWriter) (md : MetaData) (mf : MetaFile)
    (hiw : w.indexWriter = some iw) (hdw : w.dataWriter = some dw)
    (hmd : w.metaData = some md) (hmf : w.metaDataFile = some mf)
    (hbf : w.opts.enableBloomFilter = true → w.bloomFilter.isSome = true) :
    ∀ cf : CloseFaults,
      (Close w cf).2.2 = [CloseStep.closeIndex, CloseStep.closeData] ++
        (if w.opts.enableBloomFilter then [CloseStep.writeBloom] else []) ++
        [CloseStep.writeMeta, CloseStep.closeMeta] ∧
      (Close w cf).2.1 =
        (if cf.indexCloseFail then [ErrKind.indexCloseFailed] else []) ++
        (if cf.dataCloseFail then [ErrKind.dataCloseFailed] else []) ++
        (if w.opts.enableBloomFilter ∧ cf.bloomWriteFail then
          [ErrKind.bloomWriteFailed] else []) ++
        (if cf.marshalFail then [ErrKind.marshalFailed]
         else if cf.metaWriteFail then [ErrKind.metaWriteFailed] else []) ++
        (if cf.metaCloseFail then [ErrKind.metaCloseFailed] else []) := by
  intro cf
  have hba : (w.opts.enableBloomFilter && w.bloomFilter.isSome) =
      w.opts.enableBloomFilter := by
    cases hen : w.opts.enableBloomFilter
    · simp
    · simp [hbf hen]
  simp only [Close, hiw, hdw, hmd, hmf, hba]
  constructor <;> split_ifs <;> simp_all

/-- All six Close faults at once. -/
def cfAllFail : CloseFaults :=
  { indexCloseFail := true, dataCloseFail := true, bloomWriteFail := true,
    marshalFail := true, metaWriteFail := true, metaCloseFail := true }

/-- Witness for C5: on the concrete opened writer with every step
failing, the trace covers all five steps and the error joins the
index-close, data-close, bloom-write, marshal and meta-close failures. -/
theorem close_attempts_all_steps_witness :
    (Close wOpened cfAllFail).2.2 = [CloseStep.closeIndex, CloseStep.closeData] ++
      (if wOpened.opts.enableBloomFilter then [CloseStep.writeBloom] else []) ++
      [CloseStep.writeMeta, CloseStep.closeMeta] ∧
    (Close wOpened cfAllFail).2.1 =
      (if cfAllFail.indexCloseFail then [ErrKind.indexCloseFailed] else []) ++
      (if cfAllFail.dataCloseFail then [ErrKind.dataCloseFailed] else []) ++
      (if wOpened.opts.enableBloomFilter ∧ cfAllFail.bloomWriteFail then
        [ErrKind.bloomWriteFailed] else []) ++
      (if cfAllFail.marshalFail then [ErrKind.marshalFailed]
       else if cfAllFail.metaWriteFail then [ErrKind.metaWriteFailed] else []) ++
      (if cfAllFail.metaCloseFail then [ErrKind.metaCloseFailed] else []) :=
  close_attempts_all_steps wOpened (wOpened.indexWriter.getD ⟨true, [], 0⟩)
    (wOpened.dataWriter.getD ⟨true, [], 0⟩)
    (wOpened.metaData.getD ⟨0, 0, 0, none, none, 0, 0, 0⟩)
    (wOpened.metaDataFile.getD ⟨true, none⟩)
    (by decide) (by decide) (by decide) (by decide) (by decide) cfAllFail

/-- Claim C9 (amended): Open never creates the base directory - there is
no directory-creation step in the code, so opening against a missing
directory fails and leaves the world unchanged; when the directory
exists, Open creates the index, data and meta files, opens the two
recordio writers, installs fresh metadata and allocates a bloom filter
exactly when bloom is enabled. -/
theorem open_no_mkdir_behaviour (w : SSTableStreamWriter) (fs : FileSys) :
    (∀ f, (Open w fs f).2.1.dirExists = fs.dirExists) ∧
    (fs.dirExists = true →
      (Open w fs ({} : OpenFaults)).2.2 = [] ∧
      (Open w fs ({} : OpenFaults)).2.1.files =
        fs.files ++ [IndexFileName, DataFileName, MetaFileName] ∧
      (Open w fs ({} : OpenFaults)).1.indexWriter = some ⟨false, [], fileHeaderSize⟩ ∧
      (Open w fs ({} : OpenFaults)).1.dataWriter = some ⟨false, [], fileHeaderSize⟩ ∧
      (Open w fs ({} : OpenFaults)).1.metaDataFile = some ⟨false, none⟩ ∧
      (Open w fs ({} : OpenFaults)).1.metaData =
        some ⟨Version, 0, 0, none, none, 0, 0, 0⟩ ∧
      (Open w fs ({} : OpenFaults)).1.bloomFilter =
        (if w.opts.enableBloomFilter then some [] else w.bloomFilter)) ∧
    (fs.dirExists = false → ∀ f,
      (Open w fs f).2.2 ≠ [] ∧ (Open w fs f).1 = w ∧ (Open w fs f).2.1 = fs) := by
  refine ⟨?_, ?_, ?_⟩
  · intro f
    simp only [Open]
    split_ifs <;> rfl
  · intro h
    simp only [Open, h]
    norm_num
    split_ifs <;> simp_all
  · intro h f
    simp [Open, h]

/-- Counterexample to C9 as stated: opening a concrete fresh writer
against an absent base directory fails with an error and does not create
the directory, where the claim says Open creates it. -/
theorem open_missing_dir_counterexample :
    (Open (freshWriter testOptions) ⟨false, []⟩ ({} : OpenFaults)).2.1.dirExists
      = false ∧
    (Open (freshWriter testOptions) ⟨false, []⟩ ({} : OpenFaults)).2.2 ≠ [] := by
  decide

/-- Witness for C9 (amended): opening against an existing directory
succeeds and creates exactly the index, data and meta files. -/
theorem open_no_mkdir_behaviour_witness :
    (Open (freshWriter testOptions) ⟨true, []⟩ ({} : OpenFaults)).2.2 = [] ∧
    (Open (freshWriter testOptions) ⟨true, []⟩ ({} : OpenFaults)).2.1.files =
      [] ++ [IndexFileName, DataFileName, MetaFileName] := by
  have h := (open_no_mkdir_behaviour (freshWriter testOptions) ⟨true, []⟩).2.1 rfl
  exact ⟨h.1, h.2.1⟩

/-- The two loop bodies agree: iterating the skip-list iterator is the
hand-rolled WriteNext loop. -/
lemma writeLoop_eq_handRolled : ∀ (m : List (Bytes × Option Bytes))
    (w : SSTableStreamWriter) (wf : List WriteFaults),
    writeSkipListLoop w m wf = handRolledLoop w m wf
  | [], _, _ => rfl
  | (k, v) :: rest, w, wf => by
    simp only [writeSkipListLoop, handRolledLoop]
    split_ifs
    · exact writeLoop_eq_handRolled rest _ _
    · rfl

/-- Claim C6: the simple writer is the stream writer with the write
buffer overridden to 4096 bytes, and WriteSkipListMap produces exactly
the state and error of the hand-rolled Open, WriteNext-per-pair, Close
sequence on that stream writer. -/
theorem writeSkipListMap_refines_stream_loop :
    (∀ os, NewSSTableSimpleWriter os = Except.map
      (fun sw => { sw with opts := { sw.opts with writeBufferSizeBytes := 4096 } })
      (NewSSTableStreamWriter os)) ∧
    (∀ w m fs ofl wf cf, WriteSkipListMap w m fs ofl wf cf =
      handRolledWriteAll w m fs ofl wf cf) := by
  constructor
  · intro os
    unfold NewSSTableSimpleWriter NewSSTableStreamWriter
    have happ : applyOptions defaultWriterOptions (os ++ [WriteBufferSizeBytes 4096]) =
        { applyOptions defaultWriterOptions os with writeBufferSizeBytes := 4096 } := by
      simp [applyOptions, List.foldl_append, WriteBufferSizeBytes]
    rw [happ]
    by_cases hbp : (applyOptions defaultWriterOptions os).basePath = ""
    · simp [hbp, Except.map]
    · cases hc : (applyOptions defaultWriterOptions os).keyComparator with
      | none => simp [hbp, hc, Except.map]
      | some c =>
        by_cases hbe : (applyOptions defaultWriterOptions os).bloomExpectedNumberOfElements = 0
        · simp [hbp, hc, hbe, Except.map]
        · simp [hbp, hc, hbe, Except.map, freshWriter]
  · intro w m fs ofl wf cf
    unfold WriteSkipListMap handRolledWriteAll
    simp only [writeLoop_eq_handRolled]

end SSTables
